import Mathlib

/-!
Verification of the beatmap parsing and feature-aggregation engine
(`data_parser.py` of the osu-map-type-classifier repository).

The Python source is shallowly embedded: Python `int` becomes `Int`,
Python `float` becomes `ℚ` (exact rational arithmetic standing in for
IEEE reals), except for Euclidean distances, which involve square roots
and are embedded over `ℝ`.  Fallible Python operations (exceptions) are
embedded in the `Except PyError` monad, with one error constructor per
Python exception the engine can raise.
-/

/-- The runtime exceptions the embedded Python code can raise. -/
inductive PyError where
  | indexError
  | keyError
  | valueError
  | zeroDivision
deriving DecidableEq, Repr

deriving instance DecidableEq for Except

/-! ## Section scanner (`_seek_to_section`)

The document is a list of lines.  Python's `file.readline` returns the
next line, or the empty string forever once the end of file is reached;
`readline` models exactly that. -/

/-- One `readline` call on a document modelled as the list of remaining
lines: returns the line read and the rest; at end of file it returns
the empty string and leaves the document empty. -/
def readline : List String → String × List String
  | [] => ("", [])
  | l :: rest => (l, rest)

/-- Does the character list start with the given pattern? -/
def charsStartWith : List Char → List Char → Bool
  | _, [] => true
  | [], _ :: _ => false
  | a :: as, b :: bs => a = b && charsStartWith as bs

/-- Does the pattern occur as a contiguous run of the character list? -/
def charsContain : List Char → List Char → Bool
  | [], pat => pat.isEmpty
  | a :: rest, pat => charsStartWith (a :: rest) pat || charsContain rest pat

/-- Python's substring test `pat in s`. -/
def pyIn (pat s : String) : Bool :=
  charsContain s.data pat.data

/-- Fuelled embedding of the `while` loop of `_seek_to_section`: read a
line; if it contains the literal marker `[section]`, stop and return
the remaining lines; otherwise keep reading.  `none` means the fuel ran
out with the loop still running.  The Python loop has no other exit:
a result for *no* amount of fuel is non-termination. -/
def seekFuel (sec : String) : Nat → List String → Option (List String)
  | 0, _ => none
  | fuel + 1, lines =>
      let (row, rest) := readline lines
      if pyIn ("[" ++ sec ++ "]") row then some rest
      else seekFuel sec fuel rest

/-! ## Timing point table (`_get_latest_positive_beat_length`,
`_get_latest_beat_length`, `_get_current_beat_length`)

A timing point is `(timestamp, value)`; the table is kept in file
order. -/

/-- A timing point record: integer timestamp in milliseconds and a real
(beat length or negative inherited percentage) value. -/
abbrev TimingPoint := Int × ℚ

/-- The `for` loop of `_get_latest_positive_beat_length`: `acc` is the
running `most_recent`; the loop breaks at the first candidate with
timestamp strictly greater than the query time, and otherwise replaces
`acc` whenever the candidate value is positive. -/
def lpblLoop (t : Int) (acc : ℚ) : List TimingPoint → ℚ
  | [] => acc
  | c :: rest =>
      if t < c.1 then acc
      else lpblLoop t (if 0 < c.2 then c.2 else acc) rest

/-- Embeds `_get_latest_positive_beat_length`: the most recent positive value
at or before `t`.  `most_recent` is initialised to `timingPoints[0][0]`
— the first record's *timestamp* — so indexing an empty table raises
`IndexError`, and the fallback value is a timestamp, not a value. -/
def getLatestPositiveBeatLength (timingPoints : List TimingPoint) (t : Int) :
    Except PyError ℚ :=
  match timingPoints with
  | [] => .error .indexError
  | h :: _ => .ok (lpblLoop t ((h.1 : ℚ)) timingPoints)

/-- The `for` loop of `_get_latest_beat_length`: `pos` tracks the most
recent record with positive value seen so far (updated *before* the
break test, so the record the loop breaks on is included), and `cur`
tracks the most recent record with timestamp strictly before `t`; the
loop breaks at the first record with timestamp at or after `t`. -/
def glblLoop (t : Int) (pos cur : TimingPoint) : List TimingPoint → ℚ × ℚ
  | [] => (pos.2, cur.2)
  | c :: rest =>
      let pos' := if 0 < c.2 then c else pos
      if c.1 < t then glblLoop t pos' c rest
      else (pos'.2, cur.2)

/-- Embeds `_get_latest_beat_length`: returns the pair
(most recent positive value, value of the most recent record before
`t`), both defaulting to the first record; empty table raises
`IndexError`. -/
def getLatestBeatLength (timingPoints : List TimingPoint) (t : Int) :
    Except PyError (ℚ × ℚ) :=
  match timingPoints with
  | [] => .error .indexError
  | h :: _ => .ok (glblLoop t h h timingPoints)

/-- Embeds `_get_current_beat_length`: the latest beat length directly when it
is non-negative, otherwise the inherited blend
`prev × |latest| / 100`. -/
def getCurrentBeatLength (timingPoints : List TimingPoint) (t : Int) :
    Except PyError ℚ :=
  (getLatestBeatLength timingPoints t).map fun pc =>
    if 0 ≤ pc.2 then pc.2 else pc.1 * |pc.2| / 100

/-- The prefix of the table a breaking walk visits: every record up to
and including the first one with timestamp at or after `t` (all of the
table when none is). -/
def seenPrefix (t : Int) : List TimingPoint → List TimingPoint
  | [] => []
  | c :: rest => if c.1 < t then c :: seenPrefix t rest else [c]

/-! ## Hit object type decoding (`_is_circle`, `_is_slider`,
`_get_object_type`, and the dispatch inside `_get_info`) -/

/-- Embeds `_is_circle`: the masked bit itself (Python uses the integer as a
truth value). -/
def isCircle (num : Nat) : Nat := num &&& 1

/-- Embeds `_is_slider`: `num & (1 << 1)`. -/
def isSlider (num : Nat) : Nat := num &&& (1 <<< 1)

/-- Embeds `_get_object_type`: circle tested first, then slider, else
spinner.  (This helper is defined in the source but never called by
the record reader.) -/
def getObjectType (num : Nat) : String :=
  if isCircle num ≠ 0 then "circle"
  else if isSlider num ≠ 0 then "slider"
  else "spinner"

/-- The three hit-object kinds. -/
inductive ObjKind where
  | circle
  | slider
  | spinner
deriving DecidableEq, Repr

/-- The type dispatch actually performed on each record by
`_get_info`: slider tested first, then circle, else spinner. -/
def getInfoObjKind (num : Nat) : ObjKind :=
  if isSlider num ≠ 0 then .slider
  else if isCircle num ≠ 0 then .circle
  else .spinner

/-! ## String helpers for record parsing

Python's `str.split(sep)` for a one-character separator, `int(...)`
and `float(...)` are modelled structurally over `List Char` so that
they evaluate on concrete inputs. -/

/-- Embeds `str.split(sep)` over character lists: always returns at least one
(possibly empty) piece. -/
def splitChars (sep : Char) : List Char → List (List Char)
  | [] => [[]]
  | c :: rest =>
      let r := splitChars sep rest
      if c = sep then [] :: r
      else
        match r with
        | [] => [[c]]
        | g :: gs => (c :: g) :: gs

/-- Python `s.split(sep)` for a single-character separator. -/
def pySplit (s : String) (sep : Char) : List String :=
  (splitChars sep s.data).map fun cs => String.mk cs

/-- Digit-string accumulator: `none` on the first non-digit. -/
def digitsToNat (acc : Nat) : List Char → Option Nat
  | [] => some acc
  | c :: rest =>
      if c.isDigit then digitsToNat (acc * 10 + (c.toNat - 48)) rest else none

/-- Python `int(s)`: optional leading minus sign followed by at least
one digit; anything else raises `ValueError` (modelled as `none`). -/
def pyInt? (s : String) : Option Int :=
  match s.data with
  | [] => none
  | ch :: rest =>
      if ch = '-' then
        match rest with
        | [] => none
        | _ :: _ => (digitsToNat 0 rest).map fun n => -(n : Int)
      else (digitsToNat 0 (ch :: rest)).map fun n => (n : Int)

/-- Python `float(s)` restricted to plain decimal literals
(`-?digits(.digits)?`), which is the shape the beatmap format uses. -/
def pyFloat? (s : String) : Option ℚ :=
  match splitChars '.' s.data with
  | [ip] => (pyInt? (String.mk ip)).map fun n => (n : ℚ)
  | [ip, fp] =>
      match pyInt? (String.mk ip), digitsToNat 0 fp, fp with
      | some n, some m, _ :: _ =>
          let sign : ℚ := if ip.headD ' ' = '-' then -1 else 1
          some ((n : ℚ) + sign * (m : ℚ) / (10 : ℚ) ^ fp.length)
      | _, _, _ => none
  | _ => none

/-- Python list indexing `l[i]` for a non-negative index: `IndexError`
when out of range. -/
def pyIndex {α : Type} (l : List α) (i : Nat) : Except PyError α :=
  match l[i]? with
  | some a => .ok a
  | none => .error .indexError

/-- Embeds `int(s)` in the `Except` monad. -/
def exInt (s : String) : Except PyError Int :=
  match pyInt? s with
  | some n => .ok n
  | none => .error .valueError

/-- Embeds `float(s)` in the `Except` monad. -/
def exFloat (s : String) : Except PyError ℚ :=
  match pyFloat? s with
  | some q => .ok q
  | none => .error .valueError

/-! ## Slider parsing (`_parse_slider`, `_compute_slider_time_length`) -/

/-- The per-path-type slider counters, a dictionary with the fixed
keys `B`, `C`, `L`, `P` (initialised in `_get_info`). -/
structure SliderCounts where
  B : Nat
  C : Nat
  L : Nat
  P : Nat
deriving DecidableEq, Repr

/-- Embeds `slider_counts[slider_type] += 1`: incrementing a key that is not
in the dictionary raises `KeyError`. -/
def countsUpdate (key : String) (sc : SliderCounts) : Except PyError SliderCounts :=
  if key = "B" then .ok { sc with B := sc.B + 1 }
  else if key = "C" then .ok { sc with C := sc.C + 1 }
  else if key = "L" then .ok { sc with L := sc.L + 1 }
  else if key = "P" then .ok { sc with P := sc.P + 1 }
  else .error .keyError

/-- The fields `_parse_slider` fills in on a `Slider` object (the
common `x`, `y`, `time` fields are set by the caller `_get_info` and
live on the enclosing hit-object variant). -/
structure Slider where
  sliderType : String
  lastX : Int
  lastY : Int
  lastPoint : Int × Int
  numSlides : Int
  sliderLength : ℚ
  timeLength : ℚ
  totalSliderLength : ℚ
  endTime : ℚ
deriving DecidableEq, Repr

/-- Embeds `Except`-monad bind with the source's explicit error propagation. -/
def exBind {α β : Type} (ma : Except PyError α) (f : α → Except PyError β) :
    Except PyError β :=
  match ma with
  | .error e => .error e
  | .ok a => f a

/-- Embeds `_compute_slider_time_length`:
`totalLength * beatLength / (sliderMult * 100)`; a zero divisor raises
`ZeroDivisionError`. -/
def computeSliderTimeLength (totalLength : ℚ) (beat_lengths : List TimingPoint)
    (t : Int) (sliderMult : ℚ) : Except PyError ℚ :=
  exBind (getCurrentBeatLength beat_lengths t) fun beatLength =>
    if sliderMult * 100 = 0 then .error .zeroDivision
    else .ok (totalLength * beatLength / (sliderMult * 100))

/-- Parse one `x:y` control point: `split(':')`, then `int` on the
first two pieces (missing piece raises `IndexError`, non-numeric piece
raises `ValueError`). -/
def parsePoint (s : String) : Except PyError (Int × Int) :=
  let ps := pySplit s ':'
  match pyInt? (ps.headD "") with
  | none => .error .valueError
  | some x =>
      exBind (pyIndex ps 1) fun ys =>
        match pyInt? ys with
        | none => .error .valueError
        | some y => .ok (x, y)

/-- Embeds `_parse_slider`, taking the comma-split record fields.  Steps in
source order: field 5 is `Type|x1:y1|...|xn:yn`; the path-type code is
counted (`KeyError` on an unrecognized code); the first and last
control points are parsed; field 6 is the repeat count and field 7 the
base arc length; `lastPoint` is the last control point for an odd
repeat count and the first control point for an even one; the time
length is derived from the timing table and the slider multiplier. -/
def parseSlider (parsed_cur : List String) (slider_counts : SliderCounts)
    (beat_lengths : List TimingPoint) (sliderMult : ℚ) :
    Except PyError (Slider × SliderCounts) :=
  exBind (pyIndex parsed_cur 5) fun f5 =>
  let params := pySplit f5 '|'
  exBind (countsUpdate (params.headD "") slider_counts) fun counts' =>
  exBind (pyIndex params 1) fun fpStr =>
  exBind (parsePoint fpStr) fun fp =>
  exBind (parsePoint (params.getLastD "")) fun lp =>
  exBind (pyIndex parsed_cur 6) fun f6 =>
  exBind (exInt f6) fun numSlides =>
  exBind (pyIndex parsed_cur 7) fun f7 =>
  exBind (exFloat f7) fun sliderLength =>
  let lastPt := if numSlides % 2 = 1 then lp else fp
  exBind (pyIndex parsed_cur 2) fun f2 =>
  exBind (exInt f2) fun t =>
  exBind (computeSliderTimeLength ((numSlides : ℚ) * sliderLength) beat_lengths t sliderMult)
    fun timeLength =>
  .ok ({ sliderType := params.headD "", lastX := lastPt.1, lastY := lastPt.2,
         lastPoint := lastPt, numSlides := numSlides, sliderLength := sliderLength,
         timeLength := timeLength, totalSliderLength := (numSlides : ℚ) * sliderLength,
         endTime := (t : ℚ) + timeLength }, counts')

/-- The first listed control point of a slider record (`params[1]`),
when the record has one. -/
def startControlPoint (parsed_cur : List String) : Option (Int × Int) :=
  match parsed_cur[5]? with
  | none => none
  | some f5 =>
      match (pySplit f5 '|')[1]? with
      | none => none
      | some s =>
          match parsePoint s with
          | .ok p => some p
          | .error _ => none

/-- The last listed control point of a slider record (`params[-1]`). -/
def endControlPoint (parsed_cur : List String) : Option (Int × Int) :=
  match parsed_cur[5]? with
  | none => none
  | some f5 =>
      match parsePoint ((pySplit f5 '|').getLastD "") with
      | .ok p => some p
      | .error _ => none

/-! ## Hit objects and the feature aggregator (`_compute_attributes`,
`_in_tolerance`, the `FRACTIONS` table) -/

/-- A hit object as `_get_info` builds it: common position and time,
plus the variant-specific payload.  A spinner's end time is read from
the record; a slider carries the fields `_parse_slider` filled in. -/
inductive HitObj where
  | circle (x y time : Int)
  | slider (x y time : Int) (data : Slider)
  | spinner (x y time : Int) (endTime : ℚ)
deriving DecidableEq, Repr

/-- The common `time` field. -/
def HitObj.time : HitObj → Int
  | .circle _ _ t => t
  | .slider _ _ t _ => t
  | .spinner _ _ t _ => t

/-- The common `x` field. -/
def HitObj.x : HitObj → Int
  | .circle x _ _ => x
  | .slider x _ _ _ => x
  | .spinner x _ _ _ => x

/-- The common `y` field. -/
def HitObj.y : HitObj → Int
  | .circle _ y _ => y
  | .slider _ y _ _ => y
  | .spinner _ y _ _ => y

/-- The nine rhythmic buckets, in the fixed priority order of the
`FRACTIONS` table followed by the fallback `other`. -/
inductive Bucket where
  | wholes
  | halves
  | thirds
  | fourths
  | sixths
  | eigths
  | twelfths
  | sixteenths
  | other
deriving DecidableEq, Repr

/-- The count of pairs classified into each bucket (`timingDict`). -/
structure TimingDict where
  wholes : Nat
  halves : Nat
  thirds : Nat
  fourths : Nat
  sixths : Nat
  eigths : Nat
  twelfths : Nat
  sixteenths : Nat
  other : Nat
deriving DecidableEq, Repr

/-- The all-zero dictionary `_compute_attributes` starts from. -/
def TimingDict.zero : TimingDict := ⟨0, 0, 0, 0, 0, 0, 0, 0, 0⟩

/-- Embeds `timingDict[key] += 1`. -/
def TimingDict.incr (d : TimingDict) : Bucket → TimingDict
  | .wholes => { d with wholes := d.wholes + 1 }
  | .halves => { d with halves := d.halves + 1 }
  | .thirds => { d with thirds := d.thirds + 1 }
  | .fourths => { d with fourths := d.fourths + 1 }
  | .sixths => { d with sixths := d.sixths + 1 }
  | .eigths => { d with eigths := d.eigths + 1 }
  | .twelfths => { d with twelfths := d.twelfths + 1 }
  | .sixteenths => { d with sixteenths := d.sixteenths + 1 }
  | .other => { d with other := d.other + 1 }

/-- The field selected by a bucket. -/
def TimingDict.get (d : TimingDict) : Bucket → Nat
  | .wholes => d.wholes
  | .halves => d.halves
  | .thirds => d.thirds
  | .fourths => d.fourths
  | .sixths => d.sixths
  | .eigths => d.eigths
  | .twelfths => d.twelfths
  | .sixteenths => d.sixteenths
  | .other => d.other

/-- The sum of all nine bucket counts. -/
def sumDict (d : TimingDict) : Nat :=
  d.wholes + d.halves + d.thirds + d.fourths + d.sixths + d.eigths +
    d.twelfths + d.sixteenths + d.other

/-- The module constant `TIMING_TOLERANCE = 0.05`. -/
def TIMING_TOLERANCE : ℚ := 0.05

/-- The ordered `FRACTIONS` table (Python dicts preserve insertion
order, so iteration visits the keys in this order). -/
def FRACTIONS : List (Bucket × ℚ) :=
  [(.wholes, 1), (.halves, 1 / 2), (.thirds, 1 / 3), (.fourths, 1 / 4),
   (.sixths, 1 / 6), (.eigths, 1 / 8), (.twelfths, 1 / 12), (.sixteenths, 1 / 16)]

/-- Embeds `_in_tolerance`: `target*(1-tolerance) <= input <= target*(1+tolerance)`. -/
def inTolerance (input target tolerance : ℚ) : Bool :=
  decide (target * (1 - tolerance) ≤ input ∧ input ≤ target * (1 + tolerance))

/-- The `for key, value in FRACTIONS.items()` loop: once `incremented`
is set the loop breaks; the first in-tolerance entry increments its
bucket. -/
def timingLoop (timing : ℚ) : List (Bucket × ℚ) → TimingDict → Bool → TimingDict × Bool
  | [], d, incremented => (d, incremented)
  | kv :: rest, d, incremented =>
      if incremented then (d, incremented)
      else if inTolerance timing kv.2 TIMING_TOLERANCE then
        timingLoop timing rest (d.incr kv.1) true
      else timingLoop timing rest d incremented

/-- The whole per-pair timing classification: run the `FRACTIONS`
loop, then fall back to `other` when nothing matched. -/
def updateTimingDict (timing : ℚ) (d : TimingDict) : TimingDict :=
  let (d', incremented) := timingLoop timing FRACTIONS d false
  if incremented then d' else d'.incr .other

/-- The bucket the claim's words pick out: the first entry of the
`FRACTIONS` table whose target value has the ratio inside its 5%
tolerance band, and `other` when no band matches. -/
def specAssignBucket (ratio : ℚ) : Bucket :=
  match FRACTIONS.find? (fun kv => inTolerance ratio kv.2 TIMING_TOLERANCE) with
  | some kv => kv.1
  | none => .other

/-- The per-bucket percentages (`timingPercents`). -/
structure TimingPercents where
  wholes : ℚ
  halves : ℚ
  thirds : ℚ
  fourths : ℚ
  sixths : ℚ
  eigths : ℚ
  twelfths : ℚ
  sixteenths : ℚ
  other : ℚ
deriving DecidableEq, Repr

/-- The percents loop: `timingDict[t] / len(hit_objects) * 100` for
each bucket. -/
def mkPercents (d : TimingDict) (n : ℚ) : TimingPercents :=
  { wholes := (d.wholes : ℚ) / n * 100, halves := (d.halves : ℚ) / n * 100,
    thirds := (d.thirds : ℚ) / n * 100, fourths := (d.fourths : ℚ) / n * 100,
    sixths := (d.sixths : ℚ) / n * 100, eigths := (d.eigths : ℚ) / n * 100,
    twelfths := (d.twelfths : ℚ) / n * 100, sixteenths := (d.sixteenths : ℚ) / n * 100,
    other := (d.other : ℚ) / n * 100 }

/-- The sum of all nine percentage values. -/
def sumPercents (p : TimingPercents) : ℚ :=
  p.wholes + p.halves + p.thirds + p.fourths + p.sixths + p.eigths +
    p.twelfths + p.sixteenths + p.other

/-- The timing gap of a consecutive pair: `cur.time - prev.endTime`
when the previous object is a slider or spinner, else the plain time
difference (`info.time_diffs[index-1]`). -/
def pairGap (first second : HitObj) : ℚ :=
  match first with
  | .slider _ _ _ data => (second.time : ℚ) - data.endTime
  | .spinner _ _ _ endTime => (second.time : ℚ) - endTime
  | .circle _ _ _ => ((second.time - first.time : Int) : ℚ)

/-- The spacing distance of a consecutive pair: from the slider's last
point when the previous object is a slider, else from its position. -/
noncomputable def pairDist (first second : HitObj) : ℝ :=
  match first with
  | .slider _ _ _ data =>
      Real.sqrt (((second.x - data.lastX : Int) : ℝ) ^ 2 +
        ((second.y - data.lastY : Int) : ℝ) ^ 2)
  | _ =>
      Real.sqrt (((second.x - first.x : Int) : ℝ) ^ 2 +
        ((second.y - first.y : Int) : ℝ) ^ 2)

/-- The running state of the aggregation loop. -/
structure AggState where
  totalTime : ℚ
  numObjects : Int
  totalDist : ℝ
  dict : TimingDict

/-- One iteration of the aggregation loop of `_compute_attributes`,
in source order: look up the latest positive beat length at the
current object's time (`IndexError` on an empty table); compute the
gap; accumulate it when under 2000 ms and otherwise drop the object
from the covered count; classify `gap / beatLength`
(`ZeroDivisionError` when the beat length is zero); always accumulate
the spacing distance. -/
noncomputable def aggStep (beat_lengths : List TimingPoint) (st : AggState)
    (first second : HitObj) : Except PyError AggState :=
  exBind (getLatestPositiveBeatLength beat_lengths second.time) fun beatLength =>
    let gap := pairGap first second
    let totalTime' := if gap < 2000 then st.totalTime + gap else st.totalTime
    let numObjects' := if gap < 2000 then st.numObjects else st.numObjects - 1
    if beatLength = 0 then .error .zeroDivision
    else
      .ok { totalTime := totalTime', numObjects := numObjects',
            totalDist := st.totalDist + pairDist first second,
            dict := updateTimingDict (gap / beatLength) st.dict }

/-- The `for index, second in enumerate(...)` loop, already past the
skipped `index == 0` iteration: `prev` is `hit_objects[index-1]`. -/
noncomputable def aggLoop (beat_lengths : List TimingPoint) (prev : HitObj) :
    List HitObj → AggState → Except PyError AggState
  | [], st => .ok st
  | cur :: rest, st =>
      match aggStep beat_lengths st prev cur with
      | .error e => .error e
      | .ok st' => aggLoop beat_lengths cur rest st'

/-- The aggregate output (`ComputedInfo`). -/
structure ComputedInfo where
  avgDist : ℝ
  avgTime : ℚ
  timingDict : TimingDict
  timingPercents : TimingPercents

/-- Embeds `_compute_attributes`: run the pair loop, then build the
percentages over the *full* object count, then the break-adjusted
time average (`ZeroDivisionError` when the adjusted count minus one is
zero — in particular for a single-object map) and the distance
average.  An empty object list divides by zero in the percents loop. -/
noncomputable def computeAttributes (hit_objects : List HitObj)
    (beat_lengths : List TimingPoint) : Except PyError ComputedInfo :=
  match hit_objects with
  | [] => .error .zeroDivision
  | h :: rest =>
      match aggLoop beat_lengths h rest
          { totalTime := 0, numObjects := (hit_objects.length : Int),
            totalDist := 0, dict := TimingDict.zero } with
      | .error e => .error e
      | .ok st =>
          let percents := mkPercents st.dict ((hit_objects.length : ℚ))
          if st.numObjects - 1 = 0 then .error .zeroDivision
          else if (hit_objects.length : Int) - 1 = 0 then .error .zeroDivision
          else
            .ok { avgDist := st.totalDist / (((hit_objects.length : Int) - 1 : Int) : ℝ),
                  avgTime := st.totalTime / ((st.numObjects - 1 : Int) : ℚ),
                  timingDict := st.dict, timingPercents := percents }

/-- A concrete slider record parse result: path type `P`, control
points `(100,200)` and `(300,400)`, 3 repeats of length 140, at time
1013 on a 500 ms/beat table with slider multiplier 1. -/
def exampleSlider : Slider :=
  { sliderType := "P", lastX := 300, lastY := 400, lastPoint := (300, 400),
    numSlides := 3, sliderLength := 140, timeLength := 2100,
    totalSliderLength := 420, endTime := 3113 }

/-- The aggregate output for three coincident circles at times 0, 500,
1000 on a 500 ms/beat table: both gaps are whole beats. -/
noncomputable def exampleOut : ComputedInfo :=
  { avgDist := 0, avgTime := 500, timingDict := ⟨2, 0, 0, 0, 0, 0, 0, 0, 0⟩,
    timingPercents := ⟨200 / 3, 0, 0, 0, 0, 0, 0, 0, 0⟩ }

/-! ## Helper lemmas -/

theorem exBind_ok_iff {α β : Type} {ma : Except PyError α} {f : α → Except PyError β}
    {b : β} : exBind ma f = .ok b ↔ ∃ a, ma = .ok a ∧ f a = .ok b := by
  cases ma <;> simp [exBind]

theorem pyIndex_ok_iff {α : Type} {l : List α} {i : Nat} {a : α} :
    pyIndex l i = .ok a ↔ l[i]? = some a := by
  unfold pyIndex
  cases l[i]? <;> simp

theorem timingLoop_done (timing : ℚ) (L : List (Bucket × ℚ)) (d : TimingDict) :
    timingLoop timing L d true = (d, true) := by
  cases L <;> simp [timingLoop]

theorem timingLoop_find (timing : ℚ) :
    ∀ (L : List (Bucket × ℚ)) (d : TimingDict),
      timingLoop timing L d false =
        match L.find? (fun kv => inTolerance timing kv.2 TIMING_TOLERANCE) with
        | some kv => (d.incr kv.1, true)
        | none => (d, false) := by
  intro L
  induction L with
  | nil => intro d; simp [timingLoop]
  | cons kv rest ih =>
      intro d
      by_cases htol : inTolerance timing kv.2 TIMING_TOLERANCE = true
      · simp [timingLoop, htol, List.find?_cons_of_pos, timingLoop_done]
      · rw [List.find?_cons_of_neg _ (by simpa using htol)]
        simpa [timingLoop, htol] using ih d

theorem updateTimingDict_eq (timing : ℚ) (d : TimingDict) :
    updateTimingDict timing d = d.incr (specAssignBucket timing) := by
  unfold updateTimingDict specAssignBucket
  rw [timingLoop_find]
  cases hf : FRACTIONS.find? (fun kv => inTolerance timing kv.2 TIMING_TOLERANCE) <;> simp

theorem sumDict_incr (d : TimingDict) (b : Bucket) :
    sumDict (d.incr b) = sumDict d + 1 := by
  cases b <;> simp [TimingDict.incr, sumDict] <;> omega

theorem get_incr (d : TimingDict) (b b' : Bucket) :
    (d.incr b).get b' = if b' = b then d.get b' + 1 else d.get b' := by
  cases b <;> cases b' <;> simp [TimingDict.incr, TimingDict.get]

theorem lpblLoop_eq (t : Int) :
    ∀ (l : List TimingPoint) (acc : ℚ),
      lpblLoop t acc l =
        (((l.takeWhile (fun c => decide (c.1 ≤ t))).filter
            (fun c => decide (0 < c.2))).map Prod.snd).getLastD acc := by
  intro l
  induction l with
  | nil => intro acc; rfl
  | cons c rest ih =>
      intro acc
      have hstep : lpblLoop t acc (c :: rest) =
          if t < c.1 then acc else lpblLoop t (if 0 < c.2 then c.2 else acc) rest := rfl
      by_cases hc : t < c.1
      · rw [hstep, if_pos hc, List.takeWhile_cons_of_neg (by simpa using not_le.mpr hc),
          List.filter_nil, List.map_nil, List.getLastD_nil]
      · have hle : c.1 ≤ t := not_lt.mp hc
        rw [hstep, if_neg hc, List.takeWhile_cons_of_pos (by simpa using hle)]
        by_cases hp : 0 < c.2
        · rw [if_pos hp, List.filter_cons_of_pos (by simpa using hp), List.map_cons,
            List.getLastD_cons, ih]
        · rw [if_neg hp, List.filter_cons_of_neg (by simpa using hp), ih]

theorem takeWhile_filter_sorted (t : Int) :
    ∀ l : List TimingPoint, List.Pairwise (fun a b => a.1 ≤ b.1) l →
      (l.takeWhile (fun c => decide (c.1 ≤ t))).filter (fun c => decide (0 < c.2)) =
        l.filter (fun c => decide (c.1 ≤ t ∧ 0 < c.2)) := by
  intro l
  induction l with
  | nil => intro _; rfl
  | cons c rest ih =>
      intro hs
      rw [List.pairwise_cons] at hs
      by_cases hc : c.1 ≤ t
      · rw [List.takeWhile_cons_of_pos (by simpa using hc)]
        by_cases hp : 0 < c.2
        · rw [List.filter_cons_of_pos (by simpa using hp),
            List.filter_cons_of_pos (by simp [hc, hp]), ih hs.2]
        · rw [List.filter_cons_of_neg (by simpa using hp),
            List.filter_cons_of_neg (by simp [hp]), ih hs.2]
      · have hrest : rest.filter (fun x => decide (x.1 ≤ t ∧ 0 < x.2)) = [] := by
          rw [List.filter_eq_nil_iff]
          intro b hb
          simp only [decide_eq_true_eq, not_and]
          intro hbt
          exact absurd (le_trans (hs.1 b hb) hbt) hc
        rw [List.takeWhile_cons_of_neg (by simpa using hc), List.filter_nil,
          List.filter_cons_of_neg (by simp [hc]), hrest]

theorem glblLoop_eq (t : Int) :
    ∀ (l : List TimingPoint) (pos cur : TimingPoint),
      glblLoop t pos cur l =
        ((((seenPrefix t l).filter (fun c => decide (0 < c.2))).getLastD pos).2,
         (((seenPrefix t l).filter (fun x => decide (x.1 < t))).getLastD cur).2) := by
  intro l
  induction l with
  | nil => intro pos cur; rfl
  | cons c rest ih =>
      intro pos cur
      have hstep : glblLoop t pos cur (c :: rest) =
          if c.1 < t then glblLoop t (if 0 < c.2 then c else pos) c rest
          else ((if 0 < c.2 then c else pos).2, cur.2) := rfl
      have hseen : seenPrefix t (c :: rest) =
          if c.1 < t then c :: seenPrefix t rest else [c] := rfl
      by_cases hc : c.1 < t
      · have g1 : List.filter (fun x => decide (x.1 < t)) (c :: seenPrefix t rest) =
            c :: List.filter (fun x => decide (x.1 < t)) (seenPrefix t rest) :=
          List.filter_cons_of_pos (by simpa using hc)
        rw [hstep, if_pos hc, hseen, if_pos hc, g1, List.getLastD_cons]
        by_cases hp : 0 < c.2
        · rw [if_pos hp, List.filter_cons_of_pos (by simpa using hp), List.getLastD_cons, ih]
        · rw [if_neg hp, List.filter_cons_of_neg (by simpa using hp), ih]
      · rw [hstep, if_neg hc, hseen, if_neg hc]
        have f2 : List.filter (fun x => decide (x.1 < t)) [c] = [] := by
          rw [List.filter_cons_of_neg (by simpa using hc), List.filter_nil]
        by_cases hp : 0 < c.2
        · have f1 : List.filter (fun c => decide (0 < c.2)) [c] = [c] := by
            rw [List.filter_cons_of_pos (by simpa using hp), List.filter_nil]
          rw [if_pos hp, f1, f2, List.getLastD_cons, List.getLastD_nil, List.getLastD_nil]
        · have f1 : List.filter (fun c => decide (0 < c.2)) [c] = [] := by
            rw [List.filter_cons_of_neg (by simpa using hp), List.filter_nil]
          rw [if_neg hp, f1, f2, List.getLastD_nil, List.getLastD_nil]

theorem filter_seenPrefix_sorted (t : Int) :
    ∀ l : List TimingPoint, List.Pairwise (fun a b => a.1 ≤ b.1) l →
      (seenPrefix t l).filter (fun x => decide (x.1 < t)) =
        l.filter (fun x => decide (x.1 < t)) := by
  intro l
  induction l with
  | nil => intro _; rfl
  | cons c rest ih =>
      intro hs
      rw [List.pairwise_cons] at hs
      have hseen : seenPrefix t (c :: rest) =
          if c.1 < t then c :: seenPrefix t rest else [c] := rfl
      by_cases hc : c.1 < t
      · rw [hseen, if_pos hc, List.filter_cons_of_pos (by simpa using hc),
          List.filter_cons_of_pos (by simpa using hc), ih hs.2]
      · have hrest : rest.filter (fun x => decide (x.1 < t)) = [] := by
          rw [List.filter_eq_nil_iff]
          intro b hb
          simp only [decide_eq_true_eq]
          intro hbt
          exact hc (lt_of_le_of_lt (hs.1 b hb) hbt)
        rw [hseen, if_neg hc, List.filter_cons_of_neg (by simpa using hc),
          List.filter_cons_of_neg (by simpa using hc), List.filter_nil, hrest]

theorem aggStep_ok_dict (bls : List TimingPoint) (st : AggState) (first second : HitObj)
    (st' : AggState) (h : aggStep bls st first second = .ok st') :
    sumDict st'.dict = sumDict st.dict + 1 := by
  unfold aggStep at h
  rw [exBind_ok_iff] at h
  obtain ⟨bl, hbl, h⟩ := h
  by_cases hz : bl = 0
  · rw [if_pos hz] at h
    cases h
  · rw [if_neg hz] at h
    injection h with h
    subst h
    show sumDict (updateTimingDict (pairGap first second / bl) st.dict) = _
    rw [updateTimingDict_eq, sumDict_incr]

theorem aggLoop_ok_dict (bls : List TimingPoint) :
    ∀ (rest : List HitObj) (prev : HitObj) (st st' : AggState),
      aggLoop bls prev rest st = .ok st' →
      sumDict st'.dict = sumDict st.dict + rest.length := by
  intro rest
  induction rest with
  | nil =>
      intro prev st st' h
      injection h with h
      subst h
      simp
  | cons cur rest' ih =>
      intro prev st st' h
      unfold aggLoop at h
      cases hs : aggStep bls st prev cur with
      | error e => rw [hs] at h; cases h
      | ok st1 =>
          rw [hs] at h
          have h1 := ih cur st1 st' h
          have h2 := aggStep_ok_dict bls st prev cur st1 hs
          simp only [List.length_cons]
          omega

theorem sumPercents_mkPercents (d : TimingDict) (n : ℚ) :
    sumPercents (mkPercents d n) = (sumDict d : ℚ) / n * 100 := by
  simp only [sumPercents, mkPercents, sumDict]
  push_cast
  ring

/-- C1: on a document with a single hit object, `_compute_attributes`
reaches the division `totalTimeDiff / (numObjects - 1)` with a zero
denominator and raises `ZeroDivisionError`; no `DegenerateInputError`
guard exists anywhere in the engine, so the document is not rejected
before aggregation. -/
theorem singleObjectMap_zeroDivision (o : HitObj) (beat_lengths : List TimingPoint) :
    computeAttributes [o] beat_lengths = .error .zeroDivision := rfl

/-- C2: when the bracketed marker `[section]` occurs in no line of the
document, the `_seek_to_section` loop never terminates: for every
amount of fuel the fuelled embedding is still running (at end of file
`readline` returns the empty string forever, which never contains the
marker), so no `ParseError` is ever surfaced. -/
theorem seekMissingMarker_runs_forever (sec : String) (fuel : Nat) (lines : List String)
    (hempty : pyIn ("[" ++ sec ++ "]") "" = false)
    (hall : ∀ l ∈ lines, pyIn ("[" ++ sec ++ "]") l = false) :
    seekFuel sec fuel lines = none := by
  revert lines
  induction fuel with
  | zero => intro lines _; rfl
  | succ n ih =>
      intro lines hall
      cases lines with
      | nil =>
          have hstep : seekFuel sec (n + 1) [] =
              if pyIn ("[" ++ sec ++ "]") "" = true then some [] else seekFuel sec n [] := rfl
          rw [hstep, hempty, if_neg Bool.false_ne_true]
          exact ih [] (by intro l hl; cases hl)
      | cons l rest =>
          have hstep : seekFuel sec (n + 1) (l :: rest) =
              if pyIn ("[" ++ sec ++ "]") l = true then some rest else seekFuel sec n rest := rfl
          rw [hstep, hall l (List.mem_cons_self l rest), if_neg Bool.false_ne_true]
          exact ih rest (fun l' hl' => hall l' (List.mem_cons_of_mem l hl'))

/-- Witness for C2: a document whose only line is the version header
contains no `[Difficulty]` marker, and the scan is still running after
100 reads. -/
theorem seekMissingMarker_runs_forever_witness :
    pyIn "[Difficulty]" "" = false ∧
    (∀ l ∈ ["osu file format v14"], pyIn "[Difficulty]" l = false) ∧
    seekFuel "Difficulty" 100 ["osu file format v14"] = none := by
  refine ⟨by decide, by decide, ?_⟩
  exact seekMissingMarker_runs_forever "Difficulty" 100 ["osu file format v14"]
    (by decide) (by decide)

/-- Counterexample to C3: the record reader `_get_info` tests slider
*before* circle, so the bitmask 3 (bits 0 and 1 both set) is decoded
as a slider, not a circle as the claim states. -/
theorem bitmask3_decodes_slider_not_circle :
    Nat.testBit 3 0 = true ∧ getInfoObjKind 3 = ObjKind.slider ∧
      getInfoObjKind 3 ≠ ObjKind.circle := by decide

/-- C3 (amended): in the record reader, bit 1 set yields `Slider`
(regardless of bit 0), otherwise bit 0 set yields `Circle`, and
neither set yields `Spinner`; a bitmask with both bits set is a
`Slider`, because `_get_info` tests the slider bit first (only the
unused helper `_get_object_type` gives circle priority). -/
theorem recordTypeDecode_priority (num : Nat) :
    (num.testBit 1 = true → getInfoObjKind num = .slider) ∧
    (num.testBit 1 = false → num.testBit 0 = true → getInfoObjKind num = .circle) ∧
    (num.testBit 1 = false → num.testBit 0 = false → getInfoObjKind num = .spinner) := by
  have hs : isSlider num ≠ 0 ↔ num.testBit 1 = true := by
    unfold isSlider
    have h2 : (1 : Nat) <<< 1 = 2 ^ 1 := rfl
    rw [h2, Nat.and_two_pow]
    cases h : num.testBit 1 <;> simp [h]
  have hcir : isCircle num ≠ 0 ↔ num.testBit 0 = true := by
    unfold isCircle
    rw [Nat.and_one_is_mod, Nat.testBit_to_div_mod]
    simp only [pow_zero, Nat.div_one, decide_eq_true_eq]
    omega
  refine ⟨fun h1 => ?_, fun h1 h0 => ?_, fun h1 h0 => ?_⟩
  · unfold getInfoObjKind
    rw [if_pos (hs.mpr h1)]
  · unfold getInfoObjKind
    rw [if_neg (fun hne => by rw [hs, h1] at hne; cases hne), if_pos (hcir.mpr h0)]
  · unfold getInfoObjKind
    rw [if_neg (fun hne => by rw [hs, h1] at hne; cases hne),
      if_neg (fun hne => by rw [hcir, h0] at hne; cases hne)]

/-- Witness for C3 (amended): bitmask 6 has bit 1 set and decodes as a
slider. -/
theorem recordTypeDecode_priority_witness :
    Nat.testBit 6 1 = true ∧ getInfoObjKind 6 = ObjKind.slider :=
  ⟨by decide, (recordTypeDecode_priority 6).1 (by decide)⟩

/-- C7: a pair whose gap is at least 2000 ms (the test is
`timeDiff < 2000`, so a gap of exactly 2000 is excluded) leaves the
time-average numerator unchanged, decrements the covered object count,
and still accumulates the pair's spacing distance; the pair is also
still classified into a rhythm bucket. -/
theorem breakPair_excluded_from_time_kept_in_dist (beat_lengths : List TimingPoint)
    (st : AggState) (first second : HitObj) (bl : ℚ)
    (hbl : getLatestPositiveBeatLength beat_lengths second.time = .ok bl)
    (hbl0 : bl ≠ 0) (hgap : 2000 ≤ pairGap first second) :
    aggStep beat_lengths st first second =
      .ok { totalTime := st.totalTime, numObjects := st.numObjects - 1,
            totalDist := st.totalDist + pairDist first second,
            dict := updateTimingDict (pairGap first second / bl) st.dict } := by
  unfold aggStep
  rw [exBind_ok_iff]
  refine ⟨bl, hbl, ?_⟩
  rw [if_neg hbl0, if_neg (not_lt.mpr hgap), if_neg (not_lt.mpr hgap)]

/-- Counterexample to C5: on an empty timing-point table the lookup
indexes `timingPoints[0]` and raises `IndexError` — it does not
resolve to any fallback value. -/
theorem emptyTable_lookup_raises :
    getLatestPositiveBeatLength ([] : List TimingPoint) 0 = .error .indexError := rfl

/-- C5 (amended): for a non-empty table sorted ascending by timestamp,
`latestPositiveBeatLength(t)` returns the value of the most recent
record with timestamp ≤ t and value > 0; when no such record exists
(query before the first record, or no positive record in range) the
deterministic fallback is the first record's *timestamp*; an empty
table raises `IndexError` instead of resolving. -/
theorem latestPositive_spec (tps : List TimingPoint) (t : Int) (h : TimingPoint)
    (rest : List TimingPoint) (he : tps = h :: rest)
    (hs : List.Pairwise (fun a b => a.1 ≤ b.1) tps) :
    getLatestPositiveBeatLength tps t =
      .ok (((tps.filter (fun c => decide (c.1 ≤ t ∧ 0 < c.2))).map Prod.snd).getLastD
        ((h.1 : ℚ))) := by
  subst he
  have hunfold : getLatestPositiveBeatLength (h :: rest) t =
      Except.ok (lpblLoop t ((h.1 : ℚ)) (h :: rest)) := rfl
  rw [hunfold, lpblLoop_eq, takeWhile_filter_sorted t _ hs]

/-- Witness for C5 (amended): on the table `[(0, 500), (1000, -50)]`
the query at 1500 returns 500, the most recent positive value. -/
theorem latestPositive_spec_witness :
    getLatestPositiveBeatLength [((0 : Int), (500 : ℚ)), (1000, -50)] 1500 = .ok 500 := by
  have h := latestPositive_spec [((0 : Int), (500 : ℚ)), (1000, -50)] 1500 (0, 500)
    [(1000, -50)] rfl (by decide)
  rw [h]
  norm_num [List.filter_cons, List.getLastD]

theorem ite_nonneg_pos_blend (v P : ℚ) :
    (if 0 ≤ v then v else P * |v| / 100) = (if 0 < v then v else P * |v| / 100) := by
  by_cases h0 : 0 < v
  · rw [if_pos (le_of_lt h0), if_pos h0]
  · rcases eq_or_lt_of_le (not_lt.mp h0) with he0 | hlt
    · subst he0
      norm_num
    · rw [if_neg h0, if_neg (not_le.mpr hlt)]

/-- C6: for a non-empty table sorted ascending by timestamp,
`effectiveBeatLength(t)` returns `lastAtOrBefore`'s value directly
when it is positive and otherwise
`lastPositive.value × |lastAtOrBefore.value| / 100`, where
`lastAtOrBefore` is the most recent record with timestamp < t and
`lastPositive` the most recent positive-valued record seen by the walk
(which stops at the first record with timestamp ≥ t), both defaulting
to the first record; on `[(0, 500), (1000, -50)]` the query at 1500
returns 250. -/
theorem effectiveBeatLength_spec (tps : List TimingPoint) (t : Int) (h : TimingPoint)
    (rest : List TimingPoint) (he : tps = h :: rest)
    (hs : List.Pairwise (fun a b => a.1 ≤ b.1) tps) :
    getCurrentBeatLength tps t =
      .ok (if 0 < ((tps.filter (fun x => decide (x.1 < t))).getLastD h).2
           then ((tps.filter (fun x => decide (x.1 < t))).getLastD h).2
           else (((seenPrefix t tps).filter (fun c => decide (0 < c.2))).getLastD h).2 *
             |((tps.filter (fun x => decide (x.1 < t))).getLastD h).2| / 100) ∧
    getCurrentBeatLength [((0 : Int), (500 : ℚ)), (1000, -50)] 1500 = .ok 250 := by
  constructor
  · subst he
    have hunfold : getCurrentBeatLength (h :: rest) t =
        Except.ok (if 0 ≤ (glblLoop t h h (h :: rest)).2 then (glblLoop t h h (h :: rest)).2
          else (glblLoop t h h (h :: rest)).1 * |(glblLoop t h h (h :: rest)).2| / 100) := rfl
    rw [hunfold, glblLoop_eq]
    dsimp only
    rw [filter_seenPrefix_sorted t _ hs]
    exact congrArg Except.ok (ite_nonneg_pos_blend _ _)
  · norm_num [getCurrentBeatLength, getLatestBeatLength, glblLoop, Except.map]

/-- Witness for C6: the spec scenario, via the theorem. -/
theorem effectiveBeatLength_spec_witness :
    getCurrentBeatLength [((0 : Int), (500 : ℚ)), (1000, -50)] 1500 = .ok 250 :=
  (effectiveBeatLength_spec [((0 : Int), (500 : ℚ)), (1000, -50)] 1500 (0, 500)
    [(1000, -50)] rfl (by decide)).2

/-- C8: the `_in_tolerance` band is exactly
`v*(1-0.05) ≤ ratio ≤ v*(1+0.05)`; every ratio is assigned to exactly
one bucket — the first entry of the ordered `FRACTIONS` table whose
band contains it, falling back to `other` when no band matches — and
the engine's classification loop increments precisely that bucket and
no other. -/
theorem rhythmBucket_first_match (ratio : ℚ) (d : TimingDict) :
    (∀ v : ℚ, inTolerance ratio v TIMING_TOLERANCE = true ↔
      (v * (1 - 0.05) ≤ ratio ∧ ratio ≤ v * (1 + 0.05))) ∧
    updateTimingDict ratio d = d.incr (specAssignBucket ratio) ∧
    (∀ b : Bucket, (updateTimingDict ratio d).get b =
      if b = specAssignBucket ratio then d.get b + 1 else d.get b) := by
  refine ⟨fun v => ?_, updateTimingDict_eq ratio d, fun b => ?_⟩
  · simp [inTolerance, TIMING_TOLERANCE]
  · rw [updateTimingDict_eq, get_incr]

/-- Counterexample to C4: a slider record with the unrecognized
path-type code `X` does not parse as a Perfect-circle slider — the
count update `slider_counts['X'] += 1` raises `KeyError`, so parsing
fails instead of succeeding with the code treated as `P`. -/
theorem unknownPathType_X_keyError :
    parseSlider ["37", "96", "1013", "2", "0", "X|100:200|300:400", "3", "140"]
      ⟨0, 0, 0, 0⟩ [((0 : Int), (500 : ℚ))] 1 = .error .keyError := by decide

/-- C4 (amended): a slider record whose path-type code is none of `B`,
`C`, `L`, `P` makes `_parse_slider` raise `KeyError` on the
per-path-type count update; the record is not counted in any bucket
(in particular not the Perfect-circle one) and parsing never
succeeds. -/
theorem unknownPathType_keyError (fields : List String) (counts : SliderCounts)
    (bls : List TimingPoint) (mult : ℚ) (f5 : String)
    (h5 : fields[5]? = some f5)
    (hB : (pySplit f5 '|').headD "" ≠ "B")
    (hC : (pySplit f5 '|').headD "" ≠ "C")
    (hL : (pySplit f5 '|').headD "" ≠ "L")
    (hP : (pySplit f5 '|').headD "" ≠ "P") :
    parseSlider fields counts bls mult = .error .keyError := by
  have h5' : pyIndex fields 5 = .ok f5 := by unfold pyIndex; rw [h5]
  have hcu : countsUpdate ((pySplit f5 '|').headD "") counts = .error .keyError := by
    unfold countsUpdate
    rw [if_neg hB, if_neg hC, if_neg hL, if_neg hP]
  unfold parseSlider
  rw [h5']
  show exBind (countsUpdate ((pySplit f5 '|').headD "") counts) _ = _
  rw [hcu]
  rfl

/-- Witness for C4 (amended): a record with path-type code `Z`. -/
theorem unknownPathType_keyError_witness :
    parseSlider ["37", "96", "1013", "2", "0", "Z|10:20", "1", "100"]
      ⟨0, 0, 0, 0⟩ [((0 : Int), (500 : ℚ))] 1 = .error .keyError :=
  unknownPathType_keyError ["37", "96", "1013", "2", "0", "Z|10:20", "1", "100"]
    ⟨0, 0, 0, 0⟩ [((0 : Int), (500 : ℚ))] 1 "Z|10:20" (by decide) (by decide)
    (by decide) (by decide) (by decide)

/-- C9: whenever `_parse_slider` succeeds and the repeat count is at
least 1, the derived `lastPoint` is the record's last listed control
point when the repeat count is odd and its first listed control point
when it is even. -/
theorem sliderLastPoint_parity (fields : List String) (counts : SliderCounts)
    (bls : List TimingPoint) (mult : ℚ) (s : Slider) (c : SliderCounts)
    (h : parseSlider fields counts bls mult = .ok (s, c)) (hrep : 1 ≤ s.numSlides) :
    (s.numSlides % 2 = 1 → endControlPoint fields = some s.lastPoint) ∧
    (s.numSlides % 2 = 0 → startControlPoint fields = some s.lastPoint) := by
  simp only [parseSlider, exBind_ok_iff, Except.ok.injEq, Prod.mk.injEq] at h
  obtain ⟨f5, h5, counts', hcu, fpStr, hfpS, fp, hfp, lp, hlp, f6, h6, ns, hns, f7, h7,
    sl, hsl, f2, h2, tv, htv, tl, htl, hrec, hcounts⟩ := h
  have e1 : fields[5]? = some f5 := pyIndex_ok_iff.mp h5
  have hend : endControlPoint fields = some lp := by
    unfold endControlPoint
    rw [e1]
    show (match parsePoint ((pySplit f5 '|').getLastD "") with
          | .ok p => some p
          | .error _ => none) = some lp
    rw [hlp]
  have hstart : startControlPoint fields = some fp := by
    unfold startControlPoint
    rw [e1]
    show (match (pySplit f5 '|')[1]? with
          | none => none
          | some str =>
              match parsePoint str with
              | .ok p => some p
              | .error _ => none) = some fp
    rw [pyIndex_ok_iff.mp hfpS]
    show (match parsePoint fpStr with
          | .ok p => some p
          | .error _ => none) = some fp
    rw [hfp]
  subst hrec
  refine ⟨fun hodd => ?_, fun heven => ?_⟩
  · rw [hend]
    exact congrArg some (if_pos hodd).symm
  · rw [hstart]
    have hne : ¬(ns % 2 = 1) := by
      have h0 : ns % 2 = 0 := heven
      omega
    exact congrArg some (if_neg hne).symm

/-- C10: whenever `_compute_attributes` succeeds on a list of at least
two hit objects, every one of the `n-1` consecutive pairs — break
pairs included — lands in exactly one of the nine buckets, so the
bucket counts sum to `n-1`, the timing percentages sum to exactly
`(n-1)/n × 100` (the percents denominator is the full object count),
and that total is strictly below 100. -/
theorem bucketCounts_sum (hit_objects : List HitObj) (beat_lengths : List TimingPoint)
    (out : ComputedInfo) (h2 : 2 ≤ hit_objects.length)
    (h : computeAttributes hit_objects beat_lengths = .ok out) :
    sumDict out.timingDict = hit_objects.length - 1 ∧
    sumPercents out.timingPercents =
      ((hit_objects.length : ℚ) - 1) / (hit_objects.length : ℚ) * 100 ∧
    sumPercents out.timingPercents < 100 := by
  obtain ⟨o, rest, hobj⟩ : ∃ o rest, hit_objects = o :: rest := by
    cases hit_objects with
    | nil => simp at h2
    | cons a b => exact ⟨a, b, rfl⟩
  subst hobj
  rw [show computeAttributes (o :: rest) beat_lengths =
      (match aggLoop beat_lengths o rest
          { totalTime := 0, numObjects := ((o :: rest).length : Int),
            totalDist := 0, dict := TimingDict.zero } with
       | .error e => .error e
       | .ok st =>
           if st.numObjects - 1 = 0 then .error .zeroDivision
           else if ((o :: rest).length : Int) - 1 = 0 then .error .zeroDivision
           else .ok { avgDist := st.totalDist / ((((o :: rest).length : Int) - 1 : Int) : ℝ),
                      avgTime := st.totalTime / ((st.numObjects - 1 : Int) : ℚ),
                      timingDict := st.dict,
                      timingPercents := mkPercents st.dict (((o :: rest).length : ℚ)) })
      from rfl] at h
  cases hagg : aggLoop beat_lengths o rest
      { totalTime := 0, numObjects := ((o :: rest).length : Int),
        totalDist := 0, dict := TimingDict.zero } with
  | error e =>
      simp only [hagg] at h
      cases h
  | ok st =>
      simp only [hagg] at h
      by_cases hz1 : st.numObjects - 1 = 0
      · rw [if_pos hz1] at h
        cases h
      · rw [if_neg hz1] at h
        by_cases hz2 : ((o :: rest).length : Int) - 1 = 0
        · rw [if_pos hz2] at h
          cases h
        · rw [if_neg hz2] at h
          injection h with h
          subst h
          have hsum := aggLoop_ok_dict beat_lengths rest o _ st hagg
          have hdict : sumDict st.dict = rest.length := by
            simpa [sumDict, TimingDict.zero] using hsum
          have hlen : (o :: rest).length = rest.length + 1 := List.length_cons o rest
          refine ⟨?_, ?_, ?_⟩
          · show sumDict st.dict = (o :: rest).length - 1
            rw [hdict, hlen]
            omega
          · show sumPercents (mkPercents st.dict (((o :: rest).length : ℚ))) = _
            rw [sumPercents_mkPercents, hdict, hlen]
            push_cast
            ring
          · show sumPercents (mkPercents st.dict (((o :: rest).length : ℚ))) < 100
            rw [sumPercents_mkPercents, hdict, hlen]
            have hn : (0 : ℚ) < ((rest.length + 1 : Nat) : ℚ) := by positivity
            have hlt : ((rest.length : Nat) : ℚ) < ((rest.length + 1 : Nat) : ℚ) := by
              push_cast
              linarith
            calc ((rest.length : Nat) : ℚ) / ((rest.length + 1 : Nat) : ℚ) * 100
                < 1 * 100 := by
                  apply mul_lt_mul_of_pos_right _ (by norm_num)
                  rw [div_lt_one hn]
                  exact hlt
              _ = 100 := by norm_num

/-- Witness for C7: two circles exactly 2000 ms apart on a 500 ms/beat
table; the step keeps the time numerator, decrements the covered
count, and accumulates the distance. -/
theorem breakPair_excluded_witness :
    2000 ≤ pairGap (HitObj.circle 0 0 0) (HitObj.circle 0 0 2000) ∧
    aggStep [((0 : Int), (500 : ℚ))] ⟨0, 5, 0, TimingDict.zero⟩
        (HitObj.circle 0 0 0) (HitObj.circle 0 0 2000) =
      .ok { totalTime := 0, numObjects := 5 - 1,
            totalDist := (0 : ℝ) + pairDist (HitObj.circle 0 0 0) (HitObj.circle 0 0 2000),
            dict := updateTimingDict
              (pairGap (HitObj.circle 0 0 0) (HitObj.circle 0 0 2000) / 500)
              TimingDict.zero } := by
  constructor
  · norm_num [pairGap, HitObj.time]
  · exact breakPair_excluded_from_time_kept_in_dist [((0 : Int), (500 : ℚ))]
      ⟨0, 5, 0, TimingDict.zero⟩ (HitObj.circle 0 0 0) (HitObj.circle 0 0 2000) 500
      (by norm_num [getLatestPositiveBeatLength, lpblLoop, HitObj.time])
      (by norm_num)
      (by norm_num [pairGap, HitObj.time])

/-- Witness for C9: the example record parses, has odd repeat count 3,
and its `lastPoint` is the last listed control point. -/
theorem sliderLastPoint_parity_witness :
    parseSlider ["37", "96", "1013", "2", "0", "P|100:200|300:400", "3", "140"]
        ⟨0, 0, 0, 0⟩ [((0 : Int), (500 : ℚ))] 1 = .ok (exampleSlider, ⟨0, 0, 0, 1⟩) ∧
    1 ≤ exampleSlider.numSlides ∧ exampleSlider.numSlides % 2 = 1 ∧
    endControlPoint ["37", "96", "1013", "2", "0", "P|100:200|300:400", "3", "140"] =
      some exampleSlider.lastPoint := by
  have a1 : pyIndex ["37", "96", "1013", "2", "0", "P|100:200|300:400", "3", "140"] 5 =
      .ok "P|100:200|300:400" := by decide
  have a2 : pySplit "P|100:200|300:400" '|' = ["P", "100:200", "300:400"] := by decide
  have a3 : countsUpdate "P" ⟨0, 0, 0, 0⟩ = .ok ⟨0, 0, 0, 1⟩ := by decide
  have a4 : pyIndex ["P", "100:200", "300:400"] 1 = .ok "100:200" := by decide
  have a5 : parsePoint "100:200" = .ok (100, 200) := by decide
  have a6 : (["P", "100:200", "300:400"] : List String).getLastD "" = "300:400" := by decide
  have a7 : parsePoint "300:400" = .ok (300, 400) := by decide
  have a8 : pyIndex ["37", "96", "1013", "2", "0", "P|100:200|300:400", "3", "140"] 6 =
      .ok "3" := by decide
  have a9 : exInt "3" = .ok 3 := by decide
  have a10 : pyIndex ["37", "96", "1013", "2", "0", "P|100:200|300:400", "3", "140"] 7 =
      .ok "140" := by decide
  have a11 : exFloat "140" = .ok 140 := by decide
  have a12 : pyIndex ["37", "96", "1013", "2", "0", "P|100:200|300:400", "3", "140"] 2 =
      .ok "1013" := by decide
  have a13 : exInt "1013" = .ok 1013 := by decide
  have hcb : getCurrentBeatLength [((0 : Int), (500 : ℚ))] 1013 = .ok 500 := by
    norm_num [getCurrentBeatLength, getLatestBeatLength, glblLoop, Except.map]
  have hp : parseSlider ["37", "96", "1013", "2", "0", "P|100:200|300:400", "3", "140"]
      ⟨0, 0, 0, 0⟩ [((0 : Int), (500 : ℚ))] 1 = .ok (exampleSlider, ⟨0, 0, 0, 1⟩) := by
    simp only [parseSlider, computeSliderTimeLength, a1, a2, a3, a4, a5, a6, a7, a8, a9,
      a10, a11, a12, a13, hcb, exBind, List.headD_cons]
    norm_num [exampleSlider, Slider.mk.injEq, Prod.mk.injEq, Except.ok.injEq]
  refine ⟨hp, by decide, by decide, ?_⟩
  exact (sliderLastPoint_parity
    ["37", "96", "1013", "2", "0", "P|100:200|300:400", "3", "140"]
    ⟨0, 0, 0, 0⟩ [((0 : Int), (500 : ℚ))] 1 exampleSlider ⟨0, 0, 0, 1⟩ hp
    (by decide)).1 (by decide)

/-- Witness for C10: three circles, two whole-beat pairs; the bucket
counts sum to 2 and the percents sum to 2/3 of 100, which is below
100. -/
theorem bucketCounts_sum_witness :
    2 ≤ ([HitObj.circle 0 0 0, HitObj.circle 0 0 500, HitObj.circle 0 0 1000] : List HitObj).length ∧
    computeAttributes [HitObj.circle 0 0 0, HitObj.circle 0 0 500, HitObj.circle 0 0 1000]
      [((0 : Int), (500 : ℚ))] = .ok exampleOut ∧
    sumDict exampleOut.timingDict = 2 ∧ sumPercents exampleOut.timingPercents < 100 := by
  have hok : computeAttributes
      [HitObj.circle 0 0 0, HitObj.circle 0 0 500, HitObj.circle 0 0 1000]
      [((0 : Int), (500 : ℚ))] = .ok exampleOut := by
    norm_num [computeAttributes, aggLoop, aggStep, exBind, getLatestPositiveBeatLength,
      lpblLoop, pairGap, pairDist, HitObj.time, HitObj.x, HitObj.y, updateTimingDict,
      timingLoop, FRACTIONS, inTolerance, TIMING_TOLERANCE, TimingDict.incr,
      TimingDict.zero, mkPercents, exampleOut, Real.sqrt_zero,
      Except.ok.injEq, ComputedInfo.mk.injEq, TimingDict.mk.injEq, TimingPercents.mk.injEq]
  have hmain := bucketCounts_sum
    [HitObj.circle 0 0 0, HitObj.circle 0 0 500, HitObj.circle 0 0 1000]
    [((0 : Int), (500 : ℚ))] exampleOut (by decide) hok
  exact ⟨by decide, hok, hmain.1, hmain.2.2⟩
